import Mathlib

/-!
# Verification of the moonshine interpreter core (`src/vm/src/Closure.js`)

This file shallowly embeds the function-activation object (`luajs.Closure`)
and its opcode dispatch table in Lean 4 and settles the frozen claims about
them.

Modelling conventions, stated once here and referenced below:

* Lua/JS values are the inductive `Value`.  JS numbers (IEEE-754 doubles)
  are modelled by `JsNum`: an exact integer payload plus the special values
  `Infinity`, `-Infinity` and `NaN`.  Fractional doubles are outside the
  model; JS operations whose exact result would be a non-integer double are
  approximated by `JsNum.nan` and each such place carries a comment.  No
  claim depends on the numeric value of an arithmetic result, only on
  control flow (error / no error, registers written, pc movement), which the
  model reproduces exactly.
* JS sparse arrays (the register file) are `List (Option Value)`:
  `none` is a hole (`delete reg[i]`) or an index beyond `length`; reading
  either yields `undefined`, i.e. `Value.nil`.
* `luajs.Table` is an external collaborator (only its interface is used by
  `Closure.js`), so per the spec it is modelled as a member list keyed by
  strings: members of a `luajs.Table` live as host-object properties, and
  host property keys are strings, so keys coerce via `jsToString`.
* Callable values (`luajs.Function` instances and host functions) are
  opaque identifiers; their behaviour is an oracle `Ctx.app` supplied to
  the semantics.  Invoking a callable with an argument vector returns a
  vector of results or propagates an error, matching the spec interface
  "a callable wrapper ... accepts a positional argument vector and returns
  a vector of results".
* The coroutine and debug controllers are external collaborators; this
  development models the interpreter with both controllers in the
  quiescent `running` state (no suspension), so the `resuming` /
  `suspending` branches of the source are the dead branches they are in a
  plain run and are elided with a comment at each site.
-/

namespace Luajs

/-- A JS number: an exact integer, or one of the non-finite doubles.
Non-integer finite doubles are outside the model (see the header). -/
inductive JsNum where
  | int (i : Int)
  | inf
  | negInf
  | nan
deriving DecidableEq, Repr

/-- Reference to an upvalue bound by the CLOSURE pseudo-instructions:
either a cell in the activation's cell heap (a captured local) or a
delegation to upvalue `b` of the current activation. -/
inductive UpvalRef where
  | localCell (cellId : Nat)
  | parentUpval (b : Nat)
deriving DecidableEq, Repr

/-- A Lua/JS value as handled by `Closure.js`.  `table` carries its member
list (host-property model, keys coerced to strings) and its
`__luajs.metatable` field.  `func` is an opaque host/luajs callable;
`closureref` is a function value freshly created by the CLOSURE opcode from
nested prototype `bx` with its bound upvalue references. -/
inductive Value where
  | nil
  | boolean (b : Bool)
  | num (n : JsNum)
  | str (s : String)
  | table (members : List (String × Value)) (metatable : Option Value)
  | func (fid : Nat)
  | closureref (bx : Nat) (ups : List UpvalRef)
deriving Repr

/-- Digit character for a value below ten. -/
def digitChar : Nat → Char
  | 0 => '0' | 1 => '1' | 2 => '2' | 3 => '3' | 4 => '4'
  | 5 => '5' | 6 => '6' | 7 => '7' | 8 => '8' | _ => '9'

/-- Decimal digits of a natural number, most significant first. -/
def natDigits (n : Nat) : List Char :=
  if _h : n < 10 then [digitChar n]
  else natDigits (n / 10) ++ [digitChar (n % 10)]
decreasing_by exact Nat.div_lt_self (by omega) (by omega)

/-- Decimal string of a natural number (JS `String(n)` for exact ints). -/
def natStr (n : Nat) : String := String.mk (natDigits n)

/-- JS `String(i)` for an exact integer. -/
def intStr (i : Int) : String :=
  if i < 0 then String.mk ('-' :: natDigits i.natAbs) else String.mk (natDigits i.toNat)

/-- JS number-to-string conversion on the modelled numbers.  (JS prints
magnitudes at or above 1e21 in exponent form; both forms match the
floating-point pattern used by the arithmetic guards, so the claims are
insensitive to the difference.) -/
def jsNumToString : JsNum → String
  | .int i => intStr i
  | .inf => "Infinity"
  | .negInf => "-Infinity"
  | .nan => "NaN"

/-- JS string coercion `'' + v` as applied by the handlers.  `table` uses
the default `Object.prototype.toString` ("[object Object]"); `luajs.Table`
does not override it.  Functions stringify to their source text, which
never matches the numeric pattern; a fixed representative is used. -/
def jsToString : Value → String
  | .nil => "undefined"
  | .boolean true => "true"
  | .boolean false => "false"
  | .num n => jsNumToString n
  | .str s => s
  | .table _ _ => "[object Object]"
  | .func _ => "function () \x7b\x7d"
  | .closureref _ _ => "[object Object]"

/-! ## The floating-point pattern

`Closure.js` line 247:
`FLOATING_POINT_PATTERN = /^[-+]?[0-9]*\.?([0-9]+([eE][-+]?[0-9]+)?)?$/`.

`fpMatch` decides membership in the language of that anchored regex:
an optional sign, then a mantissa over digits and at most one dot, then an
optional exponent which is only permitted when the mantissa ends in a
digit (the regex requires `[0-9]+` immediately before `[eE]`). -/

/-- Decimal digit test, `[0-9]`. -/
def isDigitC (c : Char) : Bool := '0' ≤ c && c ≤ '9'

/-- Strip one leading `+` or `-`, `[-+]?`. -/
def dropSign : List Char → List Char
  | [] => []
  | c :: cs => if c = '+' || c = '-' then cs else c :: cs

/-- `[eE]` test. -/
def isExpChar (c : Char) : Bool := c = 'e' || c = 'E'

/-- Split at the first `e`/`E`, if any: mantissa and exponent remainder. -/
def splitAtFirstExp : List Char → List Char × Option (List Char)
  | [] => ([], none)
  | c :: cs =>
    if isExpChar c then ([], some cs)
    else
      let r := splitAtFirstExp cs
      (c :: r.1, r.2)

/-- Mantissa shape `[0-9]*\.?[0-9]*` folded with the regex grouping:
only digits and dots, with at most one dot. -/
def mantOk (cs : List Char) : Bool :=
  cs.all (fun c => isDigitC c || c = '.') &&
    (cs.filter (fun c => c = '.')).length ≤ 1

/-- Whether the mantissa ends in a digit (required before an exponent). -/
def lastIsDigit (cs : List Char) : Bool :=
  match cs.getLast? with
  | some c => isDigitC c
  | none => false

/-- Exponent tail `[-+]?[0-9]+`. -/
def expOk (cs : List Char) : Bool :=
  let ds := dropSign cs
  !ds.isEmpty && ds.all isDigitC

/-- Membership in the language of `FLOATING_POINT_PATTERN`. -/
def fpMatch (s : String) : Bool :=
  let cs := dropSign s.data
  match splitAtFirstExp cs with
  | (m, none) => mantOk m
  | (m, some ex) => mantOk m && lastIsDigit m && expOk ex

/-- `isNumeric(v)` as §4.1 of the spec defines it: true iff `v` is a
number, or a string whose textual form matches the floating-point
pattern.  This is the spec-side predicate the claims quantify over. -/
def isNumeric : Value → Bool
  | .num _ => true
  | .str s => fpMatch s
  | _ => false

/-- The operands on which the arithmetic guard actually succeeds: a finite
(integer-modelled) number, or a string matching the pattern. -/
def numericOperand : Value → Bool
  | .num (.int _) => true
  | .str s => fpMatch s
  | _ => false

/-! ## Truthiness and comparison primitives -/

/-- Lua truthiness as §4.1 defines `truthy(v)`: false iff nil or boolean
false.  Zero, NaN and the empty string are truthy. -/
def truthyL : Value → Bool
  | .nil => false
  | .boolean b => b
  | _ => true

/-- JS falsiness `!v`: `undefined`, `false`, `0`, `NaN` and `""` are
falsy. -/
def jsFalsy : Value → Bool
  | .nil => true
  | .boolean b => !b
  | .num (.int 0) => true
  | .num .nan => true
  | .str "" => true
  | _ => false

def jsTruthy (v : Value) : Bool := !jsFalsy v

/-- Strict comparison with `undefined` (`v === undefined` / `!== undefined`). -/
def isNil : Value → Bool
  | .nil => true
  | _ => false

/-- JS `parseInt(s, 10)`: after an optional sign, the longest digit
prefix; `none` models the NaN result.  (Leading whitespace elided: the
interpreter only feeds it iterator results.) -/
def parseInt10 (s : String) : Option Int :=
  let cs := s.data
  let (sgn, rest) :=
    match cs with
    | '-' :: t => ((-1 : Int), t)
    | '+' :: t => ((1 : Int), t)
    | t => ((1 : Int), t)
  let digs := rest.takeWhile isDigitC
  if digs.isEmpty then none
  else some (sgn * digs.foldl (fun acc c => acc * 10 + ((c.toNat - '0'.toNat : Nat) : Int)) 0)

/-- JS `Number(s)` (string-to-number coercion): empty/whitespace is 0, an
optionally-signed digit string is exact, `Infinity` forms convert, and
everything else — including numerals with a fractional part, which are
outside the integer model — is NaN. -/
def jsStrToNum (s : String) : JsNum :=
  let t := s.data.dropWhile (fun c => c = ' ' || c = '\t' || c = '\n')
  let t := (t.reverse.dropWhile (fun c => c = ' ' || c = '\t' || c = '\n')).reverse
  if t.isEmpty then .int 0
  else if t = "Infinity".data || t = "+Infinity".data then .inf
  else if t = "-Infinity".data then .negInf
  else
    let (sgn, rest) :=
      match t with
      | '-' :: r => ((-1 : Int), r)
      | '+' :: r => ((1 : Int), r)
      | r => ((1 : Int), r)
    if !rest.isEmpty && rest.all isDigitC then
      .int (sgn * rest.foldl (fun acc c => acc * 10 + ((c.toNat - '0'.toNat : Nat) : Int)) 0)
    else .nan

/-- JS `ToNumber` on values (used by relational operators on non-string
pairs).  Objects go through `ToPrimitive`, whose default stringification
is non-numeric, hence NaN. -/
def toNumberV : Value → JsNum
  | .nil => .nan
  | .boolean b => .int (if b then 1 else 0)
  | .num n => n
  | .str s => jsStrToNum s
  | .table _ _ => .nan
  | .func _ => .nan
  | .closureref _ _ => .nan

/-- Numeric `<` with NaN never related. -/
def jsNumLt : JsNum → JsNum → Bool
  | .nan, _ => false
  | _, .nan => false
  | .negInf, .negInf => false
  | .negInf, _ => true
  | _, .negInf => false
  | .inf, _ => false
  | _, .inf => true
  | .int i, .int j => i < j

/-- Numeric `<=` with NaN never related. -/
def jsNumLe : JsNum → JsNum → Bool
  | .nan, _ => false
  | _, .nan => false
  | .negInf, _ => true
  | _, .negInf => false
  | _, .inf => true
  | .inf, _ => false
  | .int i, .int j => i ≤ j

/-- JS `<` on values: lexicographic when both operands are strings,
otherwise numeric after `ToNumber`. -/
def jsLtV (b c : Value) : Bool :=
  match b, c with
  | .str s, .str t => decide (s < t)
  | _, _ => jsNumLt (toNumberV b) (toNumberV c)

/-- JS `<=` on values. -/
def jsLeV (b c : Value) : Bool :=
  match b, c with
  | .str s, .str t => decide (s ≤ t)
  | _, _ => jsNumLe (toNumberV b) (toNumberV c)

/-- Numeric equality with NaN unequal to everything. -/
def jsNumEq : JsNum → JsNum → Bool
  | .nan, _ => false
  | _, .nan => false
  | .int i, .int j => i = j
  | .inf, .inf => true
  | .negInf, .negInf => true
  | _, _ => false

/-- JS loose equality `v == a` against a small integer operand (the `A`
field of a comparison instruction).  Booleans and strings coerce through
`ToNumber`; `undefined` and objects are never loosely equal to a
number. -/
def jsLooseEqInt (v : Value) (a : Int) : Bool :=
  match v with
  | .boolean b => (if b then (1 : Int) else 0) = a
  | .num n => jsNumEq n (.int a)
  | .str s => jsNumEq (jsStrToNum s) (.int a)
  | .nil => false
  | .table _ _ => false
  | .func _ => false
  | .closureref _ _ => false

/-- JS strict equality `===`.  Numbers compare by value (NaN unequal),
strings by content.  Tables and CLOSURE-created function values compare by
reference in JS; the value model carries no reference identity, so two
table values are modelled as distinct references (the generic case: each
register holds a separately constructed object).  No claim compares table
identities. -/
def jsStrictEq (b c : Value) : Bool :=
  match b, c with
  | .nil, .nil => true
  | .boolean x, .boolean y => x = y
  | .num x, .num y => jsNumEq x y
  | .str x, .str y => x = y
  | .func x, .func y => x = y
  | .table _ _, .table _ _ => false
  | .closureref _ _, .closureref _ _ => false
  | _, _ => false

/-- JS `typeof`. -/
def jsTypeof : Value → String
  | .nil => "undefined"
  | .boolean _ => "boolean"
  | .num _ => "number"
  | .str _ => "string"
  | .table _ _ => "object"
  | .func _ => "function"
  | .closureref _ _ => "object"

/-! ## Arithmetic on modelled JS numbers

The special values propagate exactly as in IEEE-754 doubles; results that
would be non-integer finite doubles are approximated by `.nan` (marked
"outside the integer model" below).  The claims observe only the control
flow of the arithmetic handlers, never these result values. -/

def jsNumNeg : JsNum → JsNum
  | .int i => .int (-i)
  | .inf => .negInf
  | .negInf => .inf
  | .nan => .nan

def jsNumAbs : JsNum → JsNum
  | .int i => .int (i.natAbs : Int)
  | .inf => .inf
  | .negInf => .inf
  | .nan => .nan

def jsNumAdd : JsNum → JsNum → JsNum
  | .nan, _ => .nan
  | _, .nan => .nan
  | .inf, .negInf => .nan
  | .negInf, .inf => .nan
  | .inf, _ => .inf
  | _, .inf => .inf
  | .negInf, _ => .negInf
  | _, .negInf => .negInf
  | .int i, .int j => .int (i + j)

def jsNumSub (x y : JsNum) : JsNum := jsNumAdd x (jsNumNeg y)

def jsNumMul : JsNum → JsNum → JsNum
  | .nan, _ => .nan
  | _, .nan => .nan
  | .int i, .int j => .int (i * j)
  | .int i, .inf => if i = 0 then .nan else if 0 < i then .inf else .negInf
  | .int i, .negInf => if i = 0 then .nan else if 0 < i then .negInf else .inf
  | .inf, .int j => if j = 0 then .nan else if 0 < j then .inf else .negInf
  | .negInf, .int j => if j = 0 then .nan else if 0 < j then .negInf else .inf
  | .inf, .inf => .inf
  | .inf, .negInf => .negInf
  | .negInf, .inf => .negInf
  | .negInf, .negInf => .inf

def jsNumDiv : JsNum → JsNum → JsNum
  | .nan, _ => .nan
  | _, .nan => .nan
  | .int i, .int j =>
    if j = 0 then (if i = 0 then .nan else if 0 < i then .inf else .negInf)
    else if j ∣ i then .int (i / j)
    else .nan   -- non-integer quotient: outside the integer model
  | .int _, .inf => .int 0
  | .int _, .negInf => .int 0
  | .inf, .int j => if 0 ≤ j then .inf else .negInf
  | .negInf, .int j => if 0 ≤ j then .negInf else .inf
  | .inf, _ => .nan
  | .negInf, _ => .nan

/-- JS `%`: remainder with the sign of the dividend (truncated division). -/
def jsNumMod : JsNum → JsNum → JsNum
  | .nan, _ => .nan
  | _, .nan => .nan
  | .int i, .int j => if j = 0 then .nan else .int (Int.tmod i j)
  | .int i, .inf => .int i
  | .int i, .negInf => .int i
  | .inf, _ => .nan
  | .negInf, _ => .nan

/-- JS `Math.pow`.  A zero exponent yields 1 for every base (including
NaN); negative exponents of bases other than 0 and ±1 are non-integer
results, outside the integer model. -/
def jsNumPow (base expo : JsNum) : JsNum :=
  match expo with
  | .int 0 => .int 1
  | .nan => .nan
  | .int k =>
    match base with
    | .nan => .nan
    | .int i =>
      if 0 < k then .int (i ^ k.toNat)
      else if i = 0 then .inf
      else if i = 1 then .int 1
      else if i = -1 then .int (if k % 2 = 0 then 1 else -1)
      else .nan   -- magnitude-below-one result: outside the integer model
    | .inf => if 0 < k then .inf else .int 0
    | .negInf =>
      if 0 < k then (if k % 2 = 0 then .inf else .negInf) else .int 0
  | .inf =>
    match base with
    | .int 0 => .int 0
    | .int 1 => .nan
    | .int (-1) => .nan
    | .int _ => .inf
    | .inf => .inf
    | .negInf => .inf
    | .nan => .nan
  | .negInf =>
    match base with
    | .int 0 => .inf
    | .int 1 => .nan
    | .int (-1) => .nan
    | .int _ => .int 0
    | .inf => .int 0
    | .negInf => .int 0
    | .nan => .nan

/-- JS `parseFloat` applied to a string: strip one sign, accept an
`Infinity` form, else take the leading digit run; a continuation that
extends the numeric literal (a dot or an exponent marker) makes the value
potentially fractional, which is outside the integer model (`.nan`);
any other continuation is ignored, as `parseFloat` stops there. -/
def parseFloatStr (s : String) : JsNum :=
  let cs := s.data
  let (sgn, rest) :=
    match cs with
    | '-' :: t => ((-1 : Int), t)
    | '+' :: t => ((1 : Int), t)
    | t => ((1 : Int), t)
  if rest.take 8 = "Infinity".data then (if sgn = 1 then .inf else .negInf)
  else
    let digs := rest.takeWhile isDigitC
    if digs.isEmpty then .nan
    else
      match rest.drop digs.length with
      | '.' :: _ => .nan   -- fractional continuation: outside the integer model
      | 'e' :: _ => .nan   -- scaled continuation: outside the integer model
      | 'E' :: _ => .nan
      | _ => .int (sgn * digs.foldl (fun acc c => acc * 10 + ((c.toNat - '0'.toNat : Nat) : Int)) 0)

/-- `parseFloat` as the arithmetic handlers apply it to an operand value:
`parseFloat('' + v)`.  For a number the stringify/parse round trip is the
identity (`parseFloat(String(n)) = n` also for the non-finite values), so
the number case short-circuits. -/
def parseFloatV : Value → JsNum
  | .num n => n
  | v => parseFloatStr (jsToString v)

/-- JS binary `+` on values: string concatenation when either operand is a
string, numeric addition otherwise. -/
def jsPlus (x y : Value) : Value :=
  match x, y with
  | .str _, _ => .str (jsToString x ++ jsToString y)
  | _, .str _ => .str (jsToString x ++ jsToString y)
  | _, _ => .num (jsNumAdd (toNumberV x) (toNumberV y))

/-- JS binary `-` on values (always numeric). -/
def jsMinus (x y : Value) : Value :=
  .num (jsNumSub (toNumberV x) (toNumberV y))

/-- JS `>=` on values. -/
def jsGeV (x y : Value) : Bool := jsLeV y x

/-! ## Tables -/

/-- Member lookup in the host-property member list. -/
def getMemberStr (members : List (String × Value)) (k : String) : Value :=
  match members.find? (fun p => p.1 = k) with
  | some p => p.2
  | none => .nil

/-- Modelled from the spec: the external `luajs.Table` API member get,
keyed by any non-nil value; members live as host-object properties, so
the key coerces to a string. -/
def Value.getMember (t : Value) (k : Value) : Value :=
  match t with
  | .table ms _ => getMemberStr ms (jsToString k)
  | _ => .nil

/-- Member update in the host-property member list. -/
def setMemberStr (members : List (String × Value)) (k : String) (v : Value) :
    List (String × Value) :=
  match members with
  | [] => [(k, v)]
  | p :: rest => if p.1 = k then (k, v) :: rest else p :: setMemberStr rest k v

/-- Modelled from the spec: the external `luajs.Table` API member set. -/
def Value.setMember (t : Value) (k : Value) (v : Value) : Value :=
  match t with
  | .table ms mt => .table (setMemberStr ms (jsToString k) v) mt
  | other => other

/-- Modelled from the spec: the external `luajs.Table` constructor wraps an
array of values as table elements; per the LEN handler and the library
helpers, array contents live at integer keys from 1. -/
def tableOfList (xs : List Value) : Value :=
  .table (xs.enum.map (fun p => (intStr ((p.1 : Int) + 1), p.2))) none

/-- The guard pattern
`v instanceof luajs.Table && (mt = v.__luajs.metatable) && (f = mt.getMember(name))`:
yields the metamethod when `v` is a table, its metatable is set, and the
member named `name` is JS-truthy. -/
def metaMember (v : Value) (name : String) : Option Value :=
  match v with
  | .table _ (some mt) =>
    let f := mt.getMember (.str name)
    if jsTruthy f then some f else none
  | _ => none

/-- Which values own a callable `apply` member: host functions and
`luajs.Function` instances. -/
def hasApply : Value → Bool
  | .func _ => true
  | .closureref _ _ => true
  | _ => false

/-! ## Prototypes, instructions, errors, activation state -/

/-- A decoded instruction.  The loader stores wide operands (Bx, sBx) in
the `B` field — `_executeInstruction` always passes `instruction.A`,
`instruction.B`, `instruction.C` positionally — so `B` is signed. -/
structure Instr where
  op : Nat
  A : Nat := 0
  B : Int := 0
  C : Int := 0
deriving DecidableEq, Repr

/-- The slice of a nested prototype that the CLOSURE handler reads (the
upvalue-name list); the nested prototype itself is consumed only by the
external `luajs.Function` constructor. -/
structure FnProto where
  upvalues : List String := []
deriving Repr

/-- The function prototype fields `Closure.js` consumes.  A `none`
constant models the null sentinel (decoded to nil by `_getConstant`). -/
structure Proto where
  instructions : List Instr := []
  constants : List (Option Value) := []
  functions : List FnProto := []
  linePositions : List Nat := []
  paramCount : Nat := 0
  is_vararg : Nat := 0
  sourceName : String := ""
deriving Repr

/-- An upvalue cell created by the CLOSURE handler for a captured local.
`isOpen` is the source's `open` flag (a Lean keyword); `value` is the
captured value, meaningful once closed. -/
structure Cell where
  isOpen : Bool
  value : Value := .nil
  name : Option String := none
deriving Repr

/-- An entry of `_localsUsedAsUpvalues`: a live register index paired with
the shared cell (by its index in the activation's cell heap). -/
structure LocalUpval where
  registerIndex : Nat
  upvalue : Nat
deriving DecidableEq, Repr

/-- A `luajs.Error`: message, source-level stack, host stack trace. -/
structure LuaError where
  message : String
  luaStack : List String := []
  stack : String := ""
deriving DecidableEq, Repr

/-- An exception propagating through `_run`: a language error or a host
(non-`luajs.Error`) exception. -/
inductive RunErr where
  | lua (e : LuaError)
  | host (message : String) (stack : String)
deriving DecidableEq, Repr

/-- Host `TypeError`s carry engine-specific messages; the model uses a
fixed tag. -/
def typeError : RunErr := .host "TypeError" ""

/-- The mutable state of one activation. -/
structure St where
  register : List (Option Value) := []
  pc : Int := 0
  localsUsedAsUpvalues : List LocalUpval := []
  cells : List Cell := []
  upvalues : List Value := []
  globals : List (String × Value) := []
  params : List Value := []
  terminated : Bool := false
deriving Repr

/-- The immutable context of an activation: its prototype and the external
collaborators — the callable oracle `app` (what `f.apply` does for a
callable value `f`) and the string library consulted by GETTABLE/SELF. -/
structure Ctx where
  data : Proto
  app : Value → List Value → Except RunErr (List Value) := fun _ _ => .ok []
  stringLib : String → Option Value := fun _ => none

/-! ## Register file (JS sparse array) -/

/-- The raw slot at index `i`: `none` for a hole or an index past the
array length. -/
def slotVal (r : List (Option Value)) (i : Nat) : Option Value :=
  (r.get? i).bind id

/-- JS read `reg[i]`: holes and out-of-range reads give `undefined`. -/
def regRead (r : List (Option Value)) (i : Nat) : Value :=
  (slotVal r i).getD .nil

/-- Read at a possibly-negative (signed operand) index; a negative index
is an ordinary string-keyed property, never written by the handlers, so
it reads `undefined`. -/
def regReadI (r : List (Option Value)) (i : Int) : Value :=
  if i < 0 then .nil else regRead r i.toNat

/-- JS write `reg[i] = v`: extends the array through holes when `i` is at
or past the length. -/
def regWrite (r : List (Option Value)) (i : Nat) (v : Value) : List (Option Value) :=
  if i < r.length then r.set i (some v)
  else r ++ List.replicate (i - r.length) none ++ [some v]

/-- JS `delete reg[i]`: leaves a hole, the length is unchanged. -/
def regDelete (r : List (Option Value)) (i : Nat) : List (Option Value) :=
  r.set i none

/-- JS `reg.splice(n)`: removes every slot at index ≥ n. -/
def regTruncate (r : List (Option Value)) (n : Nat) : List (Option Value) :=
  r.take n

/-- The loop `for (i = t; i < reg.length; i++) delete reg[i]` of the
VARARG handler: every slot at a (signed) index at or above `t` becomes a
hole; the length is unchanged. -/
def regDeleteFrom (r : List (Option Value)) (t : Int) : List (Option Value) :=
  r.enum.map (fun p => if t ≤ (p.1 : Int) then none else p.2)

/-- `_getConstant`: the null sentinel decodes to nil; an absent index
reads `undefined`. -/
def getConstant (ctx : Ctx) (i : Int) : Value :=
  if i < 0 then .nil
  else
    match ctx.data.constants.get? i.toNat with
    | some (some v) => v
    | _ => .nil

/-- The RK operand decoder `(x >= 256) ? constant(x - 256) : register[x]`. -/
def rk (ctx : Ctx) (st : St) (x : Int) : Value :=
  if 256 ≤ x then getConstant ctx (x - 256) else regReadI st.register x

/-- Fetch the instruction at a program counter (undefined outside the
instruction list, which ends the driver loop). -/
def instrAt (ctx : Ctx) (pc : Int) : Option Instr :=
  if pc < 0 then none else ctx.data.instructions.get? pc.toNat

/-- A handler result: the updated state plus the handler's return value —
`some retvals` only when the handler returns a result vector (RETURN). -/
abbrev HRes := Except RunErr (St × Option (List Value))

/-- Invocation `f.apply([x, y])` / `f.apply({}, args)` on a value that was
not first checked for callability: a host TypeError unless `f` is
callable.  Per the spec, invoking a callable passes the argument vector
and returns the result vector (the `luajs.Function.apply` plumbing is
external). -/
def applyMM (ctx : Ctx) (f : Value) (args : List Value) : Except RunErr (List Value) :=
  if hasApply f then ctx.app f args else .error typeError

/-- JS loose equality `v == lit` against a string literal (GETGLOBAL's
`_G` test): strings compare by content; numbers and booleans coerce the
literal through `ToNumber`; `undefined` and objects (whose default
primitive form differs from the literals compared here) are not loosely
equal to it. -/
def jsLooseEqStr (v : Value) (lit : String) : Bool :=
  match v with
  | .str s => s = lit
  | .num n => jsNumEq n (jsStrToNum lit)
  | .boolean bb => jsNumEq (.int (if bb then 1 else 0)) (jsStrToNum lit)
  | _ => false

/-- Raw JS property read `v[k]` on a non-table, non-nil value: strings
expose `length` and their canonically-indexed characters; other
primitives and host functions expose nothing the interpreter consumes
(host prototype methods are outside the model). -/
def jsGetProp (v k : Value) : Value :=
  match v with
  | .str s =>
    let key := jsToString k
    if key = "length" then .num (.int s.length)
    else
      match parseInt10 key with
      | some n =>
        if 0 ≤ n && intStr n = key && n < (s.length : Int) then
          .str (String.mk [s.data.getD n.toNat ' '])
        else .nil
      | none => .nil
  | _ => .nil

/-! ## Opcode handlers

Each definition translates the handler of the same name in `Closure.js`
(the source binds the activation as `this`; here it is the explicit
`st`).  Handlers return the updated state and — only for `return_` — a
result vector. -/

def move (st : St) (a : Nat) (b : Int) : HRes :=
  .ok ({ st with register := regWrite st.register a (regReadI st.register b) }, none)

def loadk (ctx : Ctx) (st : St) (a : Nat) (bx : Int) : HRes :=
  .ok ({ st with register := regWrite st.register a (getConstant ctx bx) }, none)

def loadbool (st : St) (a : Nat) (b c : Int) : HRes :=
  let st1 := { st with register := regWrite st.register a (.boolean (b ≠ 0)) }
  .ok ((if c ≠ 0 then { st1 with pc := st1.pc + 1 } else st1), none)

def loadnil (st : St) (a : Nat) (b : Int) : HRes :=
  let cnt := (b - (a : Int) + 1).toNat
  .ok ({ st with register :=
    (List.range cnt).foldl (fun r k => regWrite r (a + k) Value.nil) st.register }, none)

def getupval (st : St) (a : Nat) (b : Int) : HRes :=
  -- `this._upvalues[b].getValue()`; an absent entry raises a host TypeError
  if 0 ≤ b && b < (st.upvalues.length : Int) then
    .ok ({ st with register := regWrite st.register a (st.upvalues.getD b.toNat .nil) }, none)
  else .error typeError

def getglobal (ctx : Ctx) (st : St) (a : Nat) (b : Int) : HRes :=
  let k := getConstant ctx b
  if jsLooseEqStr k "_G" then
    -- special case: wrap the globals mapping as a table
    .ok ({ st with register := regWrite st.register a (.table st.globals none) }, none)
  else
    -- absent keys read `undefined`; the source's explicit undefined branch
    -- writes the same value
    .ok ({ st with register := regWrite st.register a (getMemberStr st.globals (jsToString k)) }, none)

def gettable (ctx : Ctx) (st : St) (a : Nat) (b c : Int) : HRes :=
  let cv := rk ctx st c
  match regReadI st.register b with
  | .nil =>
    .error (.lua { message :=
      "Attempt to index a nil value (" ++ jsToString cv ++ " not present in nil)" })
  | .table ms mt =>
    .ok ({ st with register := regWrite st.register a (Value.getMember (.table ms mt) cv) }, none)
  | .str s =>
    let libv := (ctx.stringLib (jsToString cv)).getD .nil
    if jsTruthy libv then
      .ok ({ st with register := regWrite st.register a libv }, none)
    else
      .ok ({ st with register := regWrite st.register a (jsGetProp (.str s) cv) }, none)
  | other =>
    .ok ({ st with register := regWrite st.register a (jsGetProp other cv) }, none)

def setglobal (ctx : Ctx) (st : St) (a : Nat) (b : Int) : HRes :=
  let k := jsToString (getConstant ctx b)
  .ok ({ st with globals := setMemberStr st.globals k (regRead st.register a) }, none)

def setupval (st : St) (a : Nat) (b : Int) : HRes :=
  -- `this._upvalues[b].setValue(register[a])`
  if 0 ≤ b && b < (st.upvalues.length : Int) then
    .ok ({ st with upvalues := st.upvalues.set b.toNat (regRead st.register a) }, none)
  else .error typeError

def settable (ctx : Ctx) (st : St) (a : Nat) (b c : Int) : HRes :=
  let bk := rk ctx st b
  let cv := rk ctx st c
  match regRead st.register a with
  | .table ms mt =>
    -- value-model write-back of the mutated table (aliasing unobserved)
    .ok ({ st with register := regWrite st.register a (Value.setMember (.table ms mt) bk cv) }, none)
  | .nil =>
    -- source text: `Attempt to index a missing field (can't set "<b>" on a
    -- nil value)`; the contraction is spelled out in the model
    .error (.lua { message :=
      "Attempt to index a missing field (cannot set " ++ jsToString bk ++ " on a nil value)" })
  | _ => .ok (st, none)   -- raw property set on a primitive: silently ignored

def newtable (st : St) (a : Nat) : HRes :=
  .ok ({ st with register := regWrite st.register a (.table [] none) }, none)

def self (ctx : Ctx) (st : St) (a : Nat) (b c : Int) : HRes :=
  let cv := rk ctx st c
  let r1 := regWrite st.register (a + 1) (regReadI st.register b)
  match regReadI r1 b with   -- re-read after the write, as in the source
  | .nil =>
    .error (.lua { message :=
      "Attempt to index a nil value (" ++ jsToString cv ++ " not present in nil)" })
  | .table ms mt =>
    .ok ({ st with register := regWrite r1 a (Value.getMember (.table ms mt) cv) }, none)
  | .str s =>
    let libv := (ctx.stringLib (jsToString cv)).getD .nil
    if jsTruthy libv then .ok ({ st with register := regWrite r1 a libv }, none)
    else .ok ({ st with register := regWrite r1 a (jsGetProp (.str s) cv) }, none)
  | other =>
    .ok ({ st with register := regWrite r1 a (jsGetProp other cv) }, none)

/-- The message thrown by every arithmetic guard. -/
def arithError : RunErr :=
  .lua { message := "attempt to perform arithmetic on a non-numeric value" }

def add (ctx : Ctx) (st : St) (a : Nat) (b c : Int) : HRes :=
  let bv := rk ctx st b
  let cv := rk ctx st c
  match metaMember bv "__add" with
  | some f => do
    let rv ← applyMM ctx f [bv, cv]
    .ok ({ st with register := regWrite st.register a (rv.headD .nil) }, none)
  | none =>
    if !fpMatch (jsToString bv) || !fpMatch (jsToString cv) then .error arithError
    else
      let v := Value.num (jsNumAdd (parseFloatV bv) (parseFloatV cv))
      .ok ({ st with register := regWrite st.register a v }, none)

def sub (ctx : Ctx) (st : St) (a : Nat) (b c : Int) : HRes :=
  let bv := rk ctx st b
  let cv := rk ctx st c
  match metaMember bv "__sub" with
  | some f => do
    let rv ← applyMM ctx f [bv, cv]
    .ok ({ st with register := regWrite st.register a (rv.headD .nil) }, none)
  | none =>
    if !fpMatch (jsToString bv) || !fpMatch (jsToString cv) then .error arithError
    else
      let v := Value.num (jsNumSub (parseFloatV bv) (parseFloatV cv))
      .ok ({ st with register := regWrite st.register a v }, none)

def mul (ctx : Ctx) (st : St) (a : Nat) (b c : Int) : HRes :=
  let bv := rk ctx st b
  let cv := rk ctx st c
  match metaMember bv "__mul" with
  | some f => do
    let rv ← applyMM ctx f [bv, cv]
    .ok ({ st with register := regWrite st.register a (rv.headD .nil) }, none)
  | none =>
    if !fpMatch (jsToString bv) || !fpMatch (jsToString cv) then .error arithError
    else
      let v := Value.num (jsNumMul (parseFloatV bv) (parseFloatV cv))
      .ok ({ st with register := regWrite st.register a v }, none)

def div (ctx : Ctx) (st : St) (a : Nat) (b c : Int) : HRes :=
  let bv := rk ctx st b
  let cv := rk ctx st c
  match metaMember bv "__div" with
  | some f => do
    let rv ← applyMM ctx f [bv, cv]
    .ok ({ st with register := regWrite st.register a (rv.headD .nil) }, none)
  | none =>
    if !fpMatch (jsToString bv) || !fpMatch (jsToString cv) then .error arithError
    else
      let v := Value.num (jsNumDiv (parseFloatV bv) (parseFloatV cv))
      .ok ({ st with register := regWrite st.register a v }, none)

def mod (ctx : Ctx) (st : St) (a : Nat) (b c : Int) : HRes :=
  let bv := rk ctx st b
  let cv := rk ctx st c
  match metaMember bv "__mod" with
  | some f => do
    let rv ← applyMM ctx f [bv, cv]
    .ok ({ st with register := regWrite st.register a (rv.headD .nil) }, none)
  | none =>
    if !fpMatch (jsToString bv) || !fpMatch (jsToString cv) then .error arithError
    else
      let v := Value.num (jsNumMod (parseFloatV bv) (parseFloatV cv))
      .ok ({ st with register := regWrite st.register a v }, none)

def pow (ctx : Ctx) (st : St) (a : Nat) (b c : Int) : HRes :=
  let bv := rk ctx st b
  let cv := rk ctx st c
  match metaMember bv "__pow" with
  | some f => do
    let rv ← applyMM ctx f [bv, cv]
    .ok ({ st with register := regWrite st.register a (rv.headD .nil) }, none)
  | none =>
    if !fpMatch (jsToString bv) || !fpMatch (jsToString cv) then .error arithError
    else
      let v := Value.num (jsNumPow (parseFloatV bv) (parseFloatV cv))
      .ok ({ st with register := regWrite st.register a v }, none)

def unm (ctx : Ctx) (st : St) (a : Nat) (b : Int) : HRes :=
  let bv := regReadI st.register b
  match metaMember bv "__unm" with
  | some f => do
    let rv ← applyMM ctx f [bv]
    .ok ({ st with register := regWrite st.register a (rv.headD .nil) }, none)
  | none =>
    if !fpMatch (jsToString bv) then .error arithError
    else
      let v := Value.num (jsNumNeg (parseFloatV bv))
      .ok ({ st with register := regWrite st.register a v }, none)

/-- The `not` handler (trailing underscore: the short name would shadow
the boolean negation used throughout). -/
def not_ (st : St) (a : Nat) (b : Int) : HRes :=
  .ok ({ st with register := regWrite st.register a (.boolean (jsFalsy (regReadI st.register b))) }, none)

/-- Border count of a table: largest k with members at 1..k, the loop
`while (register[b][length + 1] != undefined) length++` (fuel-bounded by
the member count). -/
def tableLenGo (ms : List (String × Value)) : Nat → Nat → Nat
  | 0, k => k
  | fuel + 1, k =>
    match getMemberStr ms (intStr ((k : Int) + 1)) with
    | .nil => k
    | _ => tableLenGo ms fuel (k + 1)

def tableLen (ms : List (String × Value)) : Nat := tableLenGo ms (ms.length + 1) 0

def len (st : St) (a : Nat) (b : Int) : HRes :=
  match regReadI st.register b with
  | .table ms _ =>
    .ok ({ st with register := regWrite st.register a (.num (.int (tableLen ms))) }, none)
  | .closureref _ _ =>
    -- `typeof == 'object'`: own-property count of a luajs.Function
    -- instance; its enumerable fields are external, modelled as 0
    .ok ({ st with register := regWrite st.register a (.num (.int 0)) }, none)
  | .nil => .error (.lua { message := "attempt to get length of a nil value" })
  | .str s =>
    .ok ({ st with register := regWrite st.register a (.num (.int s.length)) }, none)
  | .func _ =>
    -- JS functions carry `length` (declared arity); the closure wrapper
    -- declares none
    .ok ({ st with register := regWrite st.register a (.num (.int 0)) }, none)
  | _ =>
    -- numbers and booleans have no `length`: the handler writes undefined
    .ok ({ st with register := regWrite st.register a .nil }, none)

/-- The CONCAT right fold (index `c - 1` down to `b`), threading the
accumulator `text` and any error. -/
def concatLoop (ctx : Ctx) (st : St) : Nat → Int → Value → Except RunErr Value
  | 0, _, text => .ok text
  | n + 1, i, text =>
    let lv := regReadI st.register i
    match metaMember lv "__concat" with
    | some f => do
      let rv ← applyMM ctx f [lv, text]
      concatLoop ctx st n (i - 1) (rv.headD .nil)
    | none =>
      if !((jsTypeof lv = "string" || jsTypeof lv = "number") &&
           (jsTypeof text = "string" || jsTypeof text = "number")) then
        .error (.lua { message := "Attempt to concatenate a non-string or non-numeric value" })
      else concatLoop ctx st n (i - 1) (jsPlus lv text)

def concat (ctx : Ctx) (st : St) (a : Nat) (b c : Int) : HRes := do
  let text ← concatLoop ctx st (c - b).toNat (c - 1) (regReadI st.register c)
  .ok ({ st with register := regWrite st.register a text }, none)

def jmp (st : St) (sbx : Int) : HRes :=
  .ok ({ st with pc := st.pc + sbx }, none)

def eq (ctx : Ctx) (st : St) (a : Nat) (b c : Int) : HRes :=
  let bv := rk ctx st b
  let cv := rk ctx st c
  match (if !jsStrictEq bv cv && jsTypeof bv = jsTypeof cv then metaMember bv "__eq" else none) with
  | some f => do
    let rv ← applyMM ctx f [bv, cv]
    let result := jsTruthy (rv.headD .nil)   -- `!!f.apply([b, c])[0]`
    .ok ({ st with pc := if jsLooseEqInt (.boolean result) a then st.pc else st.pc + 1 }, none)
  | none =>
    let result := jsStrictEq bv cv
    .ok ({ st with pc := if jsLooseEqInt (.boolean result) a then st.pc else st.pc + 1 }, none)

def lt (ctx : Ctx) (st : St) (a : Nat) (b c : Int) : HRes :=
  let bv := rk ctx st b
  let cv := rk ctx st c
  match metaMember bv "__le" with   -- the source's lt consults `__le`
  | some f => do
    let rv ← applyMM ctx f [bv, cv]
    let result := rv.headD .nil      -- raw first return, no boolean coercion
    .ok ({ st with pc := if jsLooseEqInt result a then st.pc else st.pc + 1 }, none)
  | none =>
    let result := Value.boolean (jsLtV bv cv)
    .ok ({ st with pc := if jsLooseEqInt result a then st.pc else st.pc + 1 }, none)

def le (ctx : Ctx) (st : St) (a : Nat) (b c : Int) : HRes :=
  let bv := rk ctx st b
  let cv := rk ctx st c
  match (if !jsStrictEq bv cv && jsTypeof bv = jsTypeof cv then metaMember bv "__le" else none) with
  | some f => do
    let rv ← applyMM ctx f [bv, cv]
    let result := rv.headD .nil
    .ok ({ st with pc := if jsLooseEqInt result a then st.pc else st.pc + 1 }, none)
  | none =>
    let result := Value.boolean (jsLeV bv cv)
    .ok ({ st with pc := if jsLooseEqInt result a then st.pc else st.pc + 1 }, none)

def test (st : St) (a : Nat) (c : Int) : HRes :=
  let av := regRead st.register a
  if jsStrictEq av (.num (.int 0)) || jsStrictEq av (.str "") then
    -- `register[a] === 0 || register[a] === ''`: explicit short circuit
    .ok ((if c = 0 then { st with pc := st.pc + 1 } else st), none)
  else
    -- `if (!register[a] !== !c) pc++`
    .ok ((if jsFalsy av ≠ decide (c = 0) then { st with pc := st.pc + 1 } else st), none)

def testset (st : St) (a : Nat) (b c : Int) : HRes :=
  -- `if (!register[b] === !c) register[a] = register[b]; else pc++`
  if jsFalsy (regReadI st.register b) = decide (c = 0) then
    .ok ({ st with register := regWrite st.register a (regReadI st.register b) }, none)
  else
    .ok ({ st with pc := st.pc + 1 }, none)

/-- The `call` handler.  `self` models the JS `this` binding: the
dispatcher invokes every handler with the activation as receiver
(`op.call(this, ...)`), but `tailcall` delegates with a plain
(receiver-less) call, whose sloppy-mode `this` is the global object.  The
global object has no `_register`, so with `self = none` the very first
register access — argument collection for `b = 0` or `b > 1`, otherwise
the callee lookup — raises a host TypeError, for every `a`, `b`, `c`.
The debug/coroutine `resuming` and `suspending` branches are the dead
branches of a quiescent run (see the header) and are elided. -/
def call (ctx : Ctx) (self : Option St) (a : Nat) (b c : Int) : HRes :=
  match self with
  | none => .error typeError
  | some st =>
    let args : List Value :=
      if b = 0 then
        (List.range (st.register.length - (a + 1))).map (fun i => regRead st.register (a + 1 + i))
      else
        (List.range (b - 1).toNat).map (fun i => regRead st.register (a + 1 + i))
    let fv := regRead st.register a
    if jsFalsy fv || !hasApply fv then
      .error (.lua { message := "Attempt to call non-function" })
    else
      match ctx.app fv args with
      | .error e => .error e
      | .ok retvals =>
        -- (non-array returns are wrapped by the source; the callable
        -- oracle already returns vectors)
        if c = 0 then
          let l := retvals.length
          let r1 := (List.range l).foldl
            (fun r i => regWrite r (a + i) (retvals.getD i .nil)) st.register
          .ok ({ st with register := regTruncate r1 (a + l) }, none)
        else
          let r1 := (List.range (c - 1).toNat).foldl
            (fun r i => regWrite r (a + i) (retvals.getD i .nil)) st.register
          .ok ({ st with register := r1 }, none)

/-- The `tailcall` handler: `return call (a, b, 0);` — a plain call of the
sibling handler, so the receiver is lost (`self = none` for the
delegated `call`), regardless of the receiver `tailcall` itself got. -/
def tailcall (ctx : Ctx) (_self : Option St) (a : Nat) (b : Int) : HRes :=
  call ctx none a b 0

/-- The closing loop of `return_` (lines 781-790): every recorded local,
in list order, has its cell receive the current register value and turn
closed, is spliced out, and has its register slot deleted. -/
def closeAll : List LocalUpval → List Cell → List (Option Value) →
    List Cell × List (Option Value)
  | [], cells, reg => (cells, reg)
  | lu :: rest, cells, reg =>
    let cells' := cells.set lu.upvalue
      { (cells.getD lu.upvalue { isOpen := false }) with
          isOpen := false, value := regRead reg lu.registerIndex }
    closeAll rest cells' (regDelete reg lu.registerIndex)

def return_ (st : St) (a : Nat) (b : Int) : HRes :=
  let retvals :=
    if b = 0 then
      (List.range (st.register.length - a)).map (fun i => regRead st.register (a + i))
    else
      (List.range (b - 1).toNat).map (fun i => regRead st.register (a + i))
  let closed := closeAll st.localsUsedAsUpvalues st.cells st.register
  .ok ({ st with cells := closed.1, register := closed.2, localsUsedAsUpvalues := [] },
       some retvals)

def forloop (st : St) (a : Nat) (sbx : Int) : HRes :=
  let r1 := regWrite st.register a
    (jsPlus (regRead st.register a) (regRead st.register (a + 2)))
  let step := toNumberV (regRead r1 (a + 2))
  let parity := jsNumDiv step (jsNumAbs step)
  let takeBranch :=
    (jsNumEq parity (.int 1) && jsLeV (regRead r1 a) (regRead r1 (a + 1))) ||
    (!jsNumEq parity (.int 1) && jsGeV (regRead r1 a) (regRead r1 (a + 1)))
  if takeBranch then
    .ok ({ st with register := regWrite r1 (a + 3) (regRead r1 a), pc := st.pc + sbx }, none)
  else
    .ok ({ st with register := r1 }, none)

def forprep (st : St) (a : Nat) (sbx : Int) : HRes :=
  let r1 := regWrite st.register a
    (jsMinus (regRead st.register a) (regRead st.register (a + 2)))
  .ok ({ st with register := r1, pc := st.pc + sbx }, none)

def tforloop (ctx : Ctx) (st : St) (a : Nat) (c : Int) : HRes :=
  let args := [regRead st.register (a + 1), regRead st.register (a + 2)]
  match applyMM ctx (regRead st.register a) args with
  | .error e => .error e
  | .ok retvals =>
    -- `if (retvals[0] && retvals[0] === '' + parseInt(retvals[0], 10))`:
    -- a truthy string strictly equal to the stringified form of its
    -- integer parse is coerced to that parse; only strings can pass the
    -- strict equality, and a failed parse stringifies to "NaN", so the
    -- literal string "NaN" is coerced to the NaN number
    let retvals :=
      match retvals with
      | .str s :: rest =>
        (match parseInt10 s with
         | some n => if jsTruthy (.str s) && intStr n = s then Value.num (.int n) :: rest
                     else Value.str s :: rest
         | none => if s = "NaN" then Value.num .nan :: rest else Value.str s :: rest)
      | r => r
    let r1 := (List.range c.toNat).foldl
      (fun r i => regWrite r (a + i + 3) (retvals.getD i .nil)) st.register
    -- `if (register[a+3] !== undefined) register[a+2] = register[a+3]; else pc++`
    if isNil (regRead r1 (a + 3)) then
      .ok ({ st with register := r1, pc := st.pc + 1 }, none)
    else
      .ok ({ st with register := regWrite r1 (a + 2) (regRead r1 (a + 3)) }, none)

def setlist (st : St) (a : Nat) (b c : Int) : HRes :=
  -- `length = b || register.length - a - 1`
  let length : Int := if b ≠ 0 then b else (st.register.length : Int) - a - 1
  match regRead st.register a with
  | .table ms mt =>
    -- value-model write-back of the mutated table (aliasing unobserved)
    let t := (List.range length.toNat).foldl
      (fun (tv : Value) (i : Nat) =>
        Value.setMember tv (.num (.int (50 * (c - 1) + Int.ofNat i + 1)))
          (regRead st.register (a + i + 1)))
      (.table ms mt)
    .ok ({ st with register := regWrite st.register a t }, none)
  | _ => .error typeError   -- `.setMember` is absent on a non-table value

/-- The CLOSE loop (splice-while-iterating): entries with register index
at or above `a` are closed and removed, the rest are kept in order. -/
def closeGe (a : Nat) : List LocalUpval → List Cell → List (Option Value) →
    List LocalUpval × List Cell × List (Option Value)
  | [], cells, reg => ([], cells, reg)
  | lu :: rest, cells, reg =>
    if a ≤ lu.registerIndex then
      let cells' := cells.set lu.upvalue
        { (cells.getD lu.upvalue { isOpen := false }) with
            isOpen := false, value := regRead reg lu.registerIndex }
      closeGe a rest cells' (regDelete reg lu.registerIndex)
    else
      let r := closeGe a rest cells reg
      (lu :: r.1, r.2.1, r.2.2)

def close (st : St) (a : Nat) : HRes :=
  let r := closeGe a st.localsUsedAsUpvalues st.cells st.register
  .ok ({ st with localsUsedAsUpvalues := r.1, cells := r.2.1, register := r.2.2 }, none)

/-- The CLOSURE pseudo-instruction loop: consume following MOVE/GETUPVAL
instructions with `A = 0`, binding one upvalue each.  A MOVE reuses the
recorded cell for its register index or creates and records a fresh open
cell; a GETUPVAL binds a delegation to the current activation's upvalue.
Fuel is the instruction count plus one: the pc strictly increases, so the
loop cannot run longer. -/
def closureLoop (ctx : Ctx) (bx : Nat) : Nat → St → List UpvalRef → St × List UpvalRef
  | 0, st, ups => (st, ups)
  | fuel + 1, st, ups =>
    match instrAt ctx st.pc with
    | none => (st, ups)
    | some i =>
      if (i.op = 0 || i.op = 4) && i.A = 0 then
        if i.op = 0 then
          match st.localsUsedAsUpvalues.find? (fun up => (up.registerIndex : Int) = i.B) with
          | some up =>
            closureLoop ctx bx fuel { st with pc := st.pc + 1 } (ups ++ [.localCell up.upvalue])
          | none =>
            let cellId := st.cells.length
            let nm := (ctx.data.functions.getD bx {}).upvalues.get? ups.length
            let st' := { st with
              cells := st.cells ++ [{ isOpen := true, name := nm }],
              localsUsedAsUpvalues := st.localsUsedAsUpvalues ++
                [{ registerIndex := i.B.toNat, upvalue := cellId }],
              pc := st.pc + 1 }
            closureLoop ctx bx fuel st' (ups ++ [.localCell cellId])
        else
          closureLoop ctx bx fuel { st with pc := st.pc + 1 } (ups ++ [.parentUpval i.B.toNat])
      else (st, ups)

def closure (ctx : Ctx) (st : St) (a : Nat) (bx : Int) : HRes :=
  let r := closureLoop ctx bx.toNat (ctx.data.instructions.length + 1) st []
  .ok ({ r.1 with register := regWrite r.1.register a (.closureref bx.toNat r.2) }, none)

def vararg (ctx : Ctx) (st : St) (a : Nat) (b : Int) : HRes :=
  let limit : Int := if b = 0 then (st.params.length : Int) - ctx.data.paramCount else b - 1
  let r1 := (List.range limit.toNat).foldl
    (fun r i => regWrite r (a + i) ((st.params.get? (ctx.data.paramCount + i)).getD .nil))
    st.register
  -- the `delete` loop runs from `a + limit` — which lies below `a` when
  -- fewer arguments than declared parameters were supplied — up to the
  -- register length, turning each slot into a hole
  .ok ({ st with register := regDeleteFrom r1 ((a : Int) + limit) }, none)

/-- The dispatch of `_executeInstruction` through `Closure.OPERATIONS`
(the fixed 38-entry table), with the source's host `Error` for an opcode
outside it.  Handlers receive the activation as receiver; the debug-mode
logging is side-effect-free and elided. -/
def execInstr (ctx : Ctx) (i : Instr) (st : St) : HRes :=
  match i.op with
  | 0 => move st i.A i.B
  | 1 => loadk ctx st i.A i.B
  | 2 => loadbool st i.A i.B i.C
  | 3 => loadnil st i.A i.B
  | 4 => getupval st i.A i.B
  | 5 => getglobal ctx st i.A i.B
  | 6 => gettable ctx st i.A i.B i.C
  | 7 => setglobal ctx st i.A i.B
  | 8 => setupval st i.A i.B
  | 9 => settable ctx st i.A i.B i.C
  | 10 => newtable st i.A
  | 11 => self ctx st i.A i.B i.C
  | 12 => add ctx st i.A i.B i.C
  | 13 => sub ctx st i.A i.B i.C
  | 14 => mul ctx st i.A i.B i.C
  | 15 => div ctx st i.A i.B i.C
  | 16 => mod ctx st i.A i.B i.C
  | 17 => pow ctx st i.A i.B i.C
  | 18 => unm ctx st i.A i.B
  | 19 => not_ st i.A i.B
  | 20 => len st i.A i.B
  | 21 => concat ctx st i.A i.B i.C
  | 22 => jmp st i.B
  | 23 => eq ctx st i.A i.B i.C
  | 24 => lt ctx st i.A i.B i.C
  | 25 => le ctx st i.A i.B i.C
  | 26 => test st i.A i.C
  | 27 => testset st i.A i.B i.C
  | 28 => call ctx (some st) i.A i.B i.C
  | 29 => tailcall ctx (some st) i.A i.B
  | 30 => return_ st i.A i.B
  | 31 => forloop st i.A i.B
  | 32 => forprep st i.A i.B
  | 33 => tforloop ctx st i.A i.C
  | 34 => setlist st i.A i.B i.C
  | 35 => close st i.A
  | 36 => closure ctx st i.A i.B
  | 37 => vararg ctx st i.A i.B
  | n => .error (.host ("Operation not implemented! (" ++ intStr n ++ ")") "")

/-! ## The activation driver -/

/-- Outcome of `_run`'s main loop. -/
inductive RunOutcome where
  | done (st : St) (retvals : List Value)
  | fellOff (st : St)
  | failed (st : St) (e : RunErr)
  | fuelOut (st : St)
deriving Repr

/-- The fetch/increment/dispatch loop of `_run` (lines 165-201), with the
controllers quiescent: running off the instruction list terminates with
no value; a handler returning a vector marks `terminated` and returns it;
a thrown error propagates with the state at the throw (the post-increment
pc).  Fuel only bounds the model's recursion. -/
def runLoop (ctx : Ctx) : Nat → St → RunOutcome
  | 0, st => .fuelOut st
  | fuel + 1, st =>
    match instrAt ctx st.pc with
    | none => .fellOff { st with terminated := true }
    | some i =>
      let st1 := { st with pc := st.pc + 1 }
      match execInstr ctx i st1 with
      | .error e => .failed st1 e
      | .ok (st2, some rv) => .done { st2 with terminated := true } rv
      | .ok (st2, none) => runLoop ctx fuel st2

/-- `_run`: clear `terminated`, then loop.  (The resumption preamble is
the controllers' dead branch in a quiescent run.) -/
def run (ctx : Ctx) (fuel : Nat) (st : St) : RunOutcome :=
  runLoop ctx fuel { st with terminated := false }

/-- The state built by `execute`'s prologue (lines 61-78) together with
the caller-visible argument array after `args.splice(0, paramCount)`
mutated it in place. -/
structure EntryResult where
  st : St
  callerArgs : List Value
deriving Repr

def executeEntry (ctx : Ctx) (initUpvals : List Value)
    (initGlobals : List (String × Value)) (args : List Value) : EntryResult :=
  let params := args                           -- `this._params = [].concat(args)`
  let taken := args.take ctx.data.paramCount   -- what `args.splice(0, paramCount)` returns
  let rest := args.drop ctx.data.paramCount    -- the caller's array after the splice
  let reg0 := taken.map some
  let reg1 :=
    if ctx.data.is_vararg = 7 then             -- LUA_COMPAT_VARARG staging
      let arg := rest                          -- `[].concat(args)`
      let t := (tableOfList arg).setMember (.str "n") (.num (.int arg.length))
      reg0 ++ [some t]                         -- `this._register.push(arg)`
    else reg0
  { st := { register := reg1, pc := 0, params := params,
            upvalues := initUpvals, globals := initGlobals },
    callerArgs := rest }

/-- The synthetic source-stack frame appended by `execute`'s catch:
`'at ' + (sourceName || 'function') + ' on line ' + linePositions[pc - 1]`. -/
def synthFrame (ctx : Ctx) (pc : Int) : String :=
  "at " ++ (if ctx.data.sourceName = "" then "function" else ctx.data.sourceName) ++
    " on line " ++
    (match (if pc - 1 < 0 then none else ctx.data.linePositions.get? (pc - 1).toNat) with
     | some l => natStr l
     | none => "undefined")

/-- `execute`'s catch block: a non-language error is wrapped as a language
error prefixed `Error in host call: ` whose `luaStack` is seeded from the
preserved host stack; every language error then gains exactly one
synthetic frame. -/
def wrapError (ctx : Ctx) (pc : Int) (e : RunErr) : LuaError :=
  match e with
  | .host msg stack =>
    { message := "Error in host call: " ++ msg,
      stack := stack,
      luaStack := stack.splitOn "\n" ++ [synthFrame ctx pc] }
  | .lua le => { le with luaStack := le.luaStack ++ [synthFrame ctx pc] }

/-- Outcome of `execute`: the `_run` return value (`none` models the
undefined of a fall-off), a wrapped error, or fuel exhaustion (a model
artefact only). -/
inductive ExecOutcome where
  | ret (st : St) (retvals : Option (List Value))
  | err (st : St) (e : LuaError)
  | fuelOut (st : St)
deriving Repr

def execute (ctx : Ctx) (fuel : Nat) (initUpvals : List Value)
    (initGlobals : List (String × Value)) (args : List Value) : ExecOutcome :=
  let entry := executeEntry ctx initUpvals initGlobals args
  match run ctx fuel entry.st with
  | .done st rv => .ret st (some rv)
  | .fellOff st => .ret st none
  | .failed st e => .err st (wrapError ctx st.pc e)
  | .fuelOut st => .fuelOut st

/-- The wrapper function returned by the `luajs.Closure` constructor
(lines 37-45): it copies the JS `arguments` object into a fresh array and
runs `execute` on the copy, so the caller's own array object is never the
one spliced — the second component is the caller's array after the call. -/
def closureWrapper (ctx : Ctx) (fuel : Nat) (initUpvals : List Value)
    (initGlobals : List (String × Value)) (callerArgs : List Value) :
    ExecOutcome × List Value :=
  (execute ctx fuel initUpvals initGlobals callerArgs, callerArgs)

/-- Direct invocation of `Closure.prototype.execute` on the caller's own
array: the result together with that array's contents after the call
(mutated by the splice). -/
def executeDirect (ctx : Ctx) (fuel : Nat) (initUpvals : List Value)
    (initGlobals : List (String × Value)) (callerArgs : List Value) :
    ExecOutcome × List Value :=
  (execute ctx fuel initUpvals initGlobals callerArgs,
   (executeEntry ctx initUpvals initGlobals callerArgs).callerArgs)

/-! # Verified properties

The remainder of the file settles the claims: first the spec-side
definitions and the concrete fixtures the statements mention, then the
helper lemmas and the claim theorems. -/

/-! ## Spec-side definitions and concrete fixtures for the claims -/

/-- The ten decimal digit characters. -/
def digitList : List Char := ['0', '1', '2', '3', '4', '5', '6', '7', '8', '9']

def c1ctx : Ctx := { data := {} }

def c1st : St := { register := [some (.num .inf), some (.num (.int 1))] }

def c1wst : St := { register := [some (.str "3.5"), some (.num (.int 2))] }

/-- Claim C2, comparison result, stated from the spec's words: the first
return of the `__le` metamethod when RK(B) is a table whose metatable
carries a (JS-truthy) `__le` member, else the primitive relational `<`
on RK(B), RK(C). -/
def ltSpecResult (ctx : Ctx) (st : St) (b c : Int) : Except RunErr Value :=
  match metaMember (rk ctx st b) "__le" with
  | some f => do
    let rv ← applyMM ctx f [rk ctx st b, rk ctx st c]
    pure (rv.headD .nil)
  | none => pure (.boolean (jsLtV (rk ctx st b) (rk ctx st c)))

/-- Claim C2 as amended: LT computes the comparison result above and
skips the next instruction iff that result is NOT loosely equal
(JS `==`) to the operand A. -/
def ltSpec (ctx : Ctx) (st : St) (a : Nat) (b c : Int) : HRes := do
  let r ← ltSpecResult ctx st b c
  pure ({ st with pc := if jsLooseEqInt r a then st.pc else st.pc + 1 }, none)

def c2tbl : Value := .table [] (some (.table [("__le", .func 0)] none))

def c2ctx : Ctx := { data := {}, app := fun _ _ => .ok [.num (.int 0)] }

def c2st : St := { register := [some c2tbl, some (.num (.int 5))], pc := 7 }

def c3st : St := { register := [some .nil, some (.num (.int 0))], pc := 3 }

def c4st : St := { register := [some (.num .nan)], pc := 3 }

/-- A program that captures a local (CLOSURE plus its MOVE
pseudo-instruction) and then runs off the end of the instruction list
without a RETURN. -/
def c5proto : Proto :=
  { instructions := [⟨36, 0, 0, 0⟩, ⟨0, 0, 1, 0⟩],
    functions := [{ upvalues := ["x"] }] }

def c5ctx : Ctx := { data := c5proto }

def c5st : St := { register := [some (.num (.int 7)), some (.num (.int 10))] }

/-- The state the driver loop ends in for `c5proto`: terminated, with the
captured-locals entry still recorded and its cell still open. -/
def c5res : St :=
  { register := [some (.closureref 0 [.localCell 0]), some (.num (.int 10))],
    pc := 2,
    localsUsedAsUpvalues := [{ registerIndex := 1, upvalue := 0 }],
    cells := [{ isOpen := true, value := .nil, name := some "x" }],
    terminated := true }

def c5wst : St :=
  { register := [some (.num (.int 10))],
    localsUsedAsUpvalues := [{ registerIndex := 0, upvalue := 0 }],
    cells := [{ isOpen := true, name := some "x" }] }

def c5wres : St :=
  { register := [none],
    localsUsedAsUpvalues := [],
    cells := [{ isOpen := false, value := .num (.int 10), name := some "x" }] }

def c6ctx : Ctx := { data := { paramCount := 2, is_vararg := 7 } }

def c6wctx : Ctx := { data := { paramCount := 1, is_vararg := 7 } }

def c6wargs : List Value := [.num (.int 10), .num (.int 20), .num (.int 30)]

/-- The register file the VARARG handler leaves behind (a projection used
to state the pointwise theorem; `vararg` never throws). -/
def varargReg (ctx : Ctx) (st : St) (a : Nat) (b : Int) : List (Option Value) :=
  match vararg ctx st a b with
  | .ok p => p.1.register
  | .error _ => []

def c7ctx : Ctx := { data := { paramCount := 1 } }

def c7st : St :=
  { register := [some (.num (.int 5)), some (.num (.int 6))], params := [] }

def c8proto : Proto :=
  { instructions := [⟨12, 0, 0, 1⟩], linePositions := [99], sourceName := "test.lua" }

def c8ctx : Ctx := { data := c8proto }

def c8stF : St := { pc := 1 }

def c8err : LuaError := { message := "attempt to perform arithmetic on a non-numeric value" }

def c9ctx : Ctx :=
  { data := {},
    app := fun v _ =>
      match v with
      | .func 0 => .ok [.num (.int 42)]
      | _ => .ok [] }

def c9st : St := { register := [some (.func 0)] }

theorem digitChar_mem (d : Nat) : digitChar d ∈ digitList := by
  unfold digitChar
  split <;> decide

theorem natDigits_mem (n : Nat) : ∀ c ∈ natDigits n, c ∈ digitList := by
  induction n using Nat.strong_induction_on with
  | _ n ih =>
    rw [natDigits]
    split
    next _ =>
      intro c hc
      rw [List.mem_singleton] at hc
      exact hc ▸ digitChar_mem n
    next h =>
      intro c hc
      rcases List.mem_append.mp hc with h1 | h1
      · exact ih (n / 10) (Nat.div_lt_self (by omega) (by omega)) c h1
      · rw [List.mem_singleton] at h1
        exact h1 ▸ digitChar_mem _

theorem natDigits_ne_nil (n : Nat) : natDigits n ≠ [] := by
  rw [natDigits]
  split <;> simp

theorem digit_char_facts : ∀ c ∈ digitList,
    isDigitC c = true ∧ (c = '+' || c = '-') = false ∧ isExpChar c = false ∧
      (c = '.') = false := by
  decide

theorem dropSign_digits {cs : List Char} (h : ∀ c ∈ cs, c ∈ digitList) (hne : cs ≠ []) :
    dropSign cs = cs := by
  cases cs with
  | nil => exact absurd rfl hne
  | cons c t =>
    have hc := (digit_char_facts c (h c (by simp))).2.1
    simp only [dropSign, hc, if_false, Bool.false_eq_true]

theorem splitAtFirstExp_digits {cs : List Char} (h : ∀ c ∈ cs, c ∈ digitList) :
    splitAtFirstExp cs = (cs, none) := by
  induction cs with
  | nil => rfl
  | cons c t ih =>
    have hc := (digit_char_facts c (h c (by simp))).2.2.1
    simp [splitAtFirstExp, hc, ih (fun x hx => h x (by simp [hx]))]

theorem mantOk_digits {cs : List Char} (h : ∀ c ∈ cs, c ∈ digitList) :
    mantOk cs = true := by
  unfold mantOk
  rw [Bool.and_eq_true]
  constructor
  · rw [List.all_eq_true]
    intro c hc
    simp [(digit_char_facts c (h c hc)).1]
  · have hf : cs.filter (fun c => decide (c = '.')) = [] := by
      rw [List.filter_eq_nil]
      intro c hc
      simpa using (digit_char_facts c (h c hc)).2.2.2
    simp [hf]

theorem fpMatch_digits {cs : List Char} (h : ∀ c ∈ cs, c ∈ digitList) (hne : cs ≠ []) :
    fpMatch (String.mk cs) = true := by
  have h1 : dropSign (String.mk cs).data = cs := dropSign_digits h hne
  unfold fpMatch
  simp only [h1, splitAtFirstExp_digits h]
  exact mantOk_digits h

theorem fpMatch_neg_digits {cs : List Char} (h : ∀ c ∈ cs, c ∈ digitList) :
    fpMatch (String.mk ('-' :: cs)) = true := by
  have h1 : dropSign (String.mk ('-' :: cs)).data = cs := by simp [dropSign]
  unfold fpMatch
  simp only [h1, splitAtFirstExp_digits h]
  exact mantOk_digits h

/-- Every exact integer stringifies to text matching the floating-point
pattern (the crux of the amended claim C1: finite numbers always pass the
arithmetic guard). -/
theorem fpMatch_intStr (i : Int) : fpMatch (intStr i) = true := by
  unfold intStr
  split
  · exact fpMatch_neg_digits (natDigits_mem _)
  · exact fpMatch_digits (natDigits_mem _) (natDigits_ne_nil _)

/-- A numeric operand passes the guard and never takes the metamethod
branch. -/
theorem numericOperand_spec {v : Value} (h : numericOperand v = true) :
    fpMatch (jsToString v) = true ∧ ∀ name, metaMember v name = none := by
  cases v with
  | num n =>
    cases n with
    | int i => exact ⟨fpMatch_intStr i, fun _ => rfl⟩
    | inf => simp [numericOperand] at h
    | negInf => simp [numericOperand] at h
    | nan => simp [numericOperand] at h
  | str s => exact ⟨h, fun _ => rfl⟩
  | nil => simp [numericOperand] at h
  | boolean b => simp [numericOperand] at h
  | table ms mt => simp [numericOperand] at h
  | func f => simp [numericOperand] at h
  | closureref bx ups => simp [numericOperand] at h

/-- C1 (amended): arithmetic is total on operand pairs that are each a
finite number or a string matching the floating-point pattern — the ADD,
SUB, MUL, DIV, MOD and POW handlers complete without raising the
"arithmetic on a non-numeric value" error; the error branch is
unreachable under this precondition.  (The claim's precondition
`isNumeric`, which admits every number, fails on the code: the guard
stringifies the operand and Infinity/NaN stringify to text outside the
pattern — see the counterexample.) -/
theorem c1_theorem (ctx : Ctx) (st : St) (a : Nat) (b c : Int)
    (hb : numericOperand (rk ctx st b) = true)
    (hc : numericOperand (rk ctx st c) = true) :
    (∃ s1, add ctx st a b c = .ok (s1, none)) ∧
    (∃ s2, sub ctx st a b c = .ok (s2, none)) ∧
    (∃ s3, mul ctx st a b c = .ok (s3, none)) ∧
    (∃ s4, div ctx st a b c = .ok (s4, none)) ∧
    (∃ s5, mod ctx st a b c = .ok (s5, none)) ∧
    (∃ s6, pow ctx st a b c = .ok (s6, none)) := by
  obtain ⟨hb1, hb2⟩ := numericOperand_spec hb
  obtain ⟨hc1, hc2⟩ := numericOperand_spec hc
  have h1 : add ctx st a b c = .ok
      ({ st with register := regWrite st.register a (.num (jsNumAdd (parseFloatV (rk ctx st b)) (parseFloatV (rk ctx st c)))) }, none) := by
    simp [add, hb2, hc2, hb1, hc1]
  have h2 : sub ctx st a b c = .ok
      ({ st with register := regWrite st.register a (.num (jsNumSub (parseFloatV (rk ctx st b)) (parseFloatV (rk ctx st c)))) }, none) := by
    simp [sub, hb2, hc2, hb1, hc1]
  have h3 : mul ctx st a b c = .ok
      ({ st with register := regWrite st.register a (.num (jsNumMul (parseFloatV (rk ctx st b)) (parseFloatV (rk ctx st c)))) }, none) := by
    simp [mul, hb2, hc2, hb1, hc1]
  have h4 : div ctx st a b c = .ok
      ({ st with register := regWrite st.register a (.num (jsNumDiv (parseFloatV (rk ctx st b)) (parseFloatV (rk ctx st c)))) }, none) := by
    simp [div, hb2, hc2, hb1, hc1]
  have h5 : mod ctx st a b c = .ok
      ({ st with register := regWrite st.register a (.num (jsNumMod (parseFloatV (rk ctx st b)) (parseFloatV (rk ctx st c)))) }, none) := by
    simp [mod, hb2, hc2, hb1, hc1]
  have h6 : pow ctx st a b c = .ok
      ({ st with register := regWrite st.register a (.num (jsNumPow (parseFloatV (rk ctx st b)) (parseFloatV (rk ctx st c)))) }, none) := by
    simp [pow, hb2, hc2, hb1, hc1]
  exact ⟨⟨_, h1⟩, ⟨_, h2⟩, ⟨_, h3⟩, ⟨_, h4⟩, ⟨_, h5⟩, ⟨_, h6⟩⟩

/-- C1 counterexample: `Infinity` is a number, hence `isNumeric`, yet the
ADD handler raises the arithmetic error on it (`'' + Infinity` is
`"Infinity"`, which the floating-point pattern rejects). -/
theorem c1_counterexample :
    isNumeric (.num .inf) = true ∧ isNumeric (.num (.int 1)) = true ∧
    rk c1ctx c1st 0 = .num .inf ∧ rk c1ctx c1st 1 = .num (.int 1) ∧
    add c1ctx c1st 2 0 1 = .error arithError :=
  ⟨rfl, rfl, rfl, rfl, rfl⟩

/-- C1 witness: the amended theorem applied at a numeric-string / finite
number operand pair. -/
theorem c1_witness :
    numericOperand (rk c1ctx c1wst 0) = true ∧
    numericOperand (rk c1ctx c1wst 1) = true ∧
    ((∃ s1, add c1ctx c1wst 2 0 1 = .ok (s1, none)) ∧
     (∃ s2, sub c1ctx c1wst 2 0 1 = .ok (s2, none)) ∧
     (∃ s3, mul c1ctx c1wst 2 0 1 = .ok (s3, none)) ∧
     (∃ s4, div c1ctx c1wst 2 0 1 = .ok (s4, none)) ∧
     (∃ s5, mod c1ctx c1wst 2 0 1 = .ok (s5, none)) ∧
     (∃ s6, pow c1ctx c1wst 2 0 1 = .ok (s6, none))) :=
  ⟨rfl, rfl, c1_theorem c1ctx c1wst 2 0 1 rfl rfl⟩

/-- C2 (amended): the LT handler refines `ltSpec` — it consults `__le`
(not `__lt`), takes the metamethod's first return as the result, uses the
primitive `<` otherwise, and skips iff the result is not loosely equal to
A; for a boolean result, loose equality to A ∈ {0, 1} is exactly
"equals (A ≠ 0)", so the claim's "boolean differs from A" reading holds
there — but not for non-boolean metamethod results (see the
counterexample). -/
theorem c2_theorem :
    (∀ ctx st a b c, lt ctx st a b c = ltSpec ctx st a b c) ∧
    (∀ r : Bool, jsLooseEqInt (.boolean r) 0 = !r ∧ jsLooseEqInt (.boolean r) 1 = r) := by
  constructor
  · intro ctx st a b c
    cases hm : metaMember (rk ctx st b) "__le" with
    | none => simp [lt, ltSpec, ltSpecResult, hm, pure, Except.pure, Bind.bind, Except.bind]
    | some f =>
      cases ha : applyMM ctx f [rk ctx st b, rk ctx st c] with
      | error e => simp [lt, ltSpec, ltSpecResult, hm, ha, pure, Except.pure, Bind.bind, Except.bind]
      | ok rv => simp [lt, ltSpec, ltSpecResult, hm, ha, pure, Except.pure, Bind.bind, Except.bind]
  · intro r
    cases r <;> exact ⟨by decide, by decide⟩

/-- C2 counterexample: RK(B) is a table whose metatable has a `__le`
member; the metamethod's first return is the number 0, whose boolean
(truthy, §4.1: zero is truthy) equals A = 1's, so the claim predicts no
skip — but the handler compares with JS loose equality (`0 != 1`) and
skips the next instruction. -/
theorem c2_counterexample :
    metaMember (rk c2ctx c2st 0) "__le" = some (.func 0) ∧
    c2ctx.app (.func 0) [rk c2ctx c2st 0, rk c2ctx c2st 1] = .ok [.num (.int 0)] ∧
    truthyL (.num (.int 0)) = true ∧
    lt c2ctx c2st 1 0 1 = .ok ({ c2st with pc := 8 }, none) :=
  ⟨rfl, rfl, rfl, rfl⟩

/-- C3 (code bug, evaluated at the failing input): R[B] is the number 0 —
truthy per §4.1, and C = 1 is nonzero — so the claim requires
`R[A] ← R[B]` with no skip; the handler instead tests raw JS falsiness
(`!0` is true, unlike the sibling `test` handler, which short-circuits 0
and the empty string), takes the else branch, skips the next instruction
and leaves R[A] untouched. -/
theorem c3_code_bug :
    truthyL (regReadI c3st.register 1) = true ∧
    testset c3st 0 1 1 = .ok ({ c3st with pc := 4 }, none) :=
  ⟨rfl, rfl⟩

/-- C4 (code bug, evaluated at the failing input): R[A] = NaN is truthy
per §4.1 (neither nil nor false) and C = 1, so the claim requires no
skip; NaN escapes the handler's `=== 0 || === ''` short circuit and is
JS-falsy, so the inverted test `!register[a] !== !c` fires and the next
instruction is skipped.  (No register is modified, as the claim states.) -/
theorem c4_code_bug :
    truthyL (regRead c4st.register 0) = true ∧
    test c4st 0 1 = .ok ({ c4st with pc := 4 }, none) :=
  ⟨rfl, rfl⟩

/-! ## Register/cell bookkeeping lemmas (claims C5, C6, C7) -/

theorem slotVal_regDelete_self (r : List (Option Value)) (i : Nat) :
    slotVal (regDelete r i) i = none := by
  unfold slotVal regDelete
  by_cases h : i < r.length
  · rw [List.get?_set_eq_of_lt _ h]
    rfl
  · rw [List.get?_eq_none.mpr (by simpa using Nat.le_of_not_lt h)]
    rfl

theorem slotVal_regDelete_ne (r : List (Option Value)) (i j : Nat) (h : i ≠ j) :
    slotVal (regDelete r i) j = slotVal r j := by
  unfold slotVal regDelete
  rw [List.get?_set_ne _ _ h]

theorem regRead_regDelete_ne (r : List (Option Value)) (i j : Nat) (h : i ≠ j) :
    regRead (regDelete r i) j = regRead r j := by
  unfold regRead
  rw [slotVal_regDelete_ne r i j h]

theorem cells_getD_set_ne (l : List Cell) (i j : Nat) (x d : Cell) (h : i ≠ j) :
    (l.set i x).getD j d = l.getD j d := by
  unfold List.getD
  rw [List.get?_set_ne _ _ h]

theorem closeAll_cells_ne (l : List LocalUpval) :
    ∀ (cells : List Cell) (reg : List (Option Value)) (j : Nat),
    (∀ lu ∈ l, lu.upvalue ≠ j) →
    (closeAll l cells reg).1.get? j = cells.get? j := by
  induction l with
  | nil => intro cells reg j _; rfl
  | cons lu rest ih =>
    intro cells reg j h
    simp only [closeAll]
    rw [ih _ _ _ (fun x hx => h x (by simp [hx]))]
    exact List.get?_set_ne _ _ (h lu (by simp))

theorem closeAll_reg_ne (l : List LocalUpval) :
    ∀ (cells : List Cell) (reg : List (Option Value)) (j : Nat),
    (∀ lu ∈ l, lu.registerIndex ≠ j) →
    slotVal (closeAll l cells reg).2 j = slotVal reg j := by
  induction l with
  | nil => intro cells reg j _; rfl
  | cons lu rest ih =>
    intro cells reg j h
    simp only [closeAll]
    rw [ih _ _ _ (fun x hx => h x (by simp [hx]))]
    exact slotVal_regDelete_ne _ _ _ (h lu (by simp))

theorem closeAll_length (l : List LocalUpval) :
    ∀ cells reg, (closeAll l cells reg).1.length = cells.length := by
  induction l with
  | nil => intro cells reg; rfl
  | cons lu rest ih =>
    intro cells reg
    simp only [closeAll]
    rw [ih]
    exact List.length_set _ _ _

/-- The content of the RETURN closing loop: on a list whose register
indices and cell ids are duplicate-free (the shape the CLOSURE handler
maintains: one shared cell per captured register) with valid cell ids,
every listed cell ends closed, holding the register value its index had
when the loop ran, and every listed register slot ends deleted. -/
theorem closeAll_spec (l : List LocalUpval) :
    ∀ (cells : List Cell) (reg : List (Option Value)),
    (l.map (fun lu => lu.registerIndex)).Nodup →
    (l.map (fun lu => lu.upvalue)).Nodup →
    (∀ lu ∈ l, lu.upvalue < cells.length) →
    ∀ lu ∈ l,
      (closeAll l cells reg).1.getD lu.upvalue { isOpen := true } =
        { isOpen := false, value := regRead reg lu.registerIndex,
          name := (cells.getD lu.upvalue { isOpen := true }).name } ∧
      slotVal (closeAll l cells reg).2 lu.registerIndex = none := by
  induction l with
  | nil => intro cells reg _ _ _ lu hlu; exact absurd hlu (List.not_mem_nil lu)
  | cons lu0 rest ih =>
    intro cells reg hidx hids hbound lu hlu
    simp only [List.map_cons, List.nodup_cons] at hidx hids
    have hb0 : lu0.upvalue < cells.length := hbound lu0 (by simp)
    rcases List.mem_cons.mp hlu with rfl | hmem
    · -- the head entry: closed by the first iteration, untouched afterwards
      constructor
      · have hne : ∀ x ∈ rest, x.upvalue ≠ lu.upvalue := by
          intro x hx hcontra
          exact hids.1 (List.mem_map.mpr ⟨x, hx, hcontra⟩)
        simp only [closeAll]
        unfold List.getD
        rw [closeAll_cells_ne rest _ _ _ hne,
          List.get?_set_eq_of_lt _ hb0, List.get?_eq_get hb0]
        rfl
      · have hne : ∀ x ∈ rest, x.registerIndex ≠ lu.registerIndex := by
          intro x hx hcontra
          exact hidx.1 (List.mem_map.mpr ⟨x, hx, hcontra⟩)
        simp only [closeAll]
        rw [closeAll_reg_ne rest _ _ _ hne]
        exact slotVal_regDelete_self reg lu.registerIndex
    · -- a tail entry: the induction hypothesis on the updated heap/registers
      have hne_idx : lu0.registerIndex ≠ lu.registerIndex := by
        intro hcontra
        exact hidx.1 (List.mem_map.mpr ⟨lu, hmem, hcontra.symm⟩)
      have hne_id : lu0.upvalue ≠ lu.upvalue := by
        intro hcontra
        exact hids.1 (List.mem_map.mpr ⟨lu, hmem, hcontra.symm⟩)
      have hbound' : ∀ x ∈ rest, x.upvalue <
          (cells.set lu0.upvalue
            { (cells.getD lu0.upvalue { isOpen := false }) with
                isOpen := false, value := regRead reg lu0.registerIndex }).length := by
        intro x hx
        rw [List.length_set]
        exact hbound x (by simp [hx])
      have hspec := ih _ (regDelete reg lu0.registerIndex) hidx.2 hids.2 hbound' lu hmem
      simp only [closeAll]
      constructor
      · rw [hspec.1, regRead_regDelete_ne _ _ _ hne_idx,
          cells_getD_set_ne _ _ _ _ _ hne_id]
      · exact hspec.2

/-- C5 (amended): every activation that terminates by executing a RETURN
instruction — the only way a handler hands a result vector to the driver —
leaves its captured-locals list empty, and every cell recorded on that
list at the moment RETURN ran has transitioned to the closed state
holding the captured register's value at closing time, with the register
slot deleted.  (An activation can also terminate by running off the end
of the instruction list without a RETURN; the counterexample shows that
such a termination leaves open cells recorded, refuting the claim as
stated over all terminated activations.)  The duplicate-freedom
hypotheses state the shape the CLOSURE handler maintains: one shared
cell per captured register index. -/
theorem c5_theorem (st : St) (a : Nat) (b : Int) (st' : St) (rv : Option (List Value))
    (hidx : (st.localsUsedAsUpvalues.map (fun lu => lu.registerIndex)).Nodup)
    (hids : (st.localsUsedAsUpvalues.map (fun lu => lu.upvalue)).Nodup)
    (hbound : ∀ lu ∈ st.localsUsedAsUpvalues, lu.upvalue < st.cells.length)
    (h : return_ st a b = .ok (st', rv)) :
    st'.localsUsedAsUpvalues = [] ∧
    ∀ lu ∈ st.localsUsedAsUpvalues,
      (st'.cells.getD lu.upvalue { isOpen := true }).isOpen = false ∧
      (st'.cells.getD lu.upvalue { isOpen := true }).value =
        regRead st.register lu.registerIndex ∧
      slotVal st'.register lu.registerIndex = none := by
  simp only [return_, Except.ok.injEq, Prod.mk.injEq] at h
  obtain ⟨hst, _⟩ := h
  subst hst
  refine ⟨rfl, fun lu hlu => ?_⟩
  have hspec := closeAll_spec st.localsUsedAsUpvalues st.cells st.register
    hidx hids hbound lu hlu
  refine ⟨?_, ?_, hspec.2⟩
  · rw [hspec.1]
  · rw [hspec.1]

/-- C5 counterexample: an activation that terminates by running off the
instruction list (no RETURN executed) is `terminated`, yet its
captured-locals list is non-empty and the recorded cell is still open —
refuting the claim as stated over every terminated activation. -/
theorem c5_counterexample :
    runLoop c5ctx 5 c5st = .fellOff c5res ∧
    c5res.terminated = true ∧
    c5res.localsUsedAsUpvalues.length = 1 ∧
    (c5res.cells.getD 0 { isOpen := false }).isOpen = true :=
  ⟨rfl, rfl, rfl, rfl⟩

/-- C5 witness: the amended theorem applied to an activation returning
with one captured local — the cell closes over the register value 10, the
slot is deleted, the list is emptied. -/
theorem c5_witness :
    c5wres.localsUsedAsUpvalues = [] ∧
    ∀ lu ∈ c5wst.localsUsedAsUpvalues,
      (c5wres.cells.getD lu.upvalue { isOpen := true }).isOpen = false ∧
      (c5wres.cells.getD lu.upvalue { isOpen := true }).value =
        regRead c5wst.register lu.registerIndex ∧
      slotVal c5wres.register lu.registerIndex = none :=
  c5_theorem c5wst 0 1 c5wres (some []) (by decide) (by decide) (by decide) rfl

/-- C6 (amended): on entry the driver sets pc to 0, retains the full
argument vector as `_params`, copies the supplied arguments into
registers 0.., and — when `is_vararg = 7` — appends the compat-vararg
table (the surplus arguments, with member `n` set to their count) as the
next register slot, i.e. at index `min paramCount args.length`.  That
index is `paramCount` exactly when at least `paramCount` arguments were
supplied; the counterexample shows the table landing below `paramCount`
on under-application, refuting the claim's unconditional "at register
index paramCount". -/
theorem c6_theorem (ctx : Ctx) (ups : List Value) (gls : List (String × Value))
    (args : List Value) (h7 : ctx.data.is_vararg = 7) :
    (executeEntry ctx ups gls args).st.pc = 0 ∧
    (executeEntry ctx ups gls args).st.params = args ∧
    (∀ i, i < min ctx.data.paramCount args.length →
      regRead (executeEntry ctx ups gls args).st.register i = args.getD i .nil) ∧
    regRead (executeEntry ctx ups gls args).st.register
        (min ctx.data.paramCount args.length) =
      (tableOfList (args.drop ctx.data.paramCount)).setMember (.str "n")
        (.num (.int (args.drop ctx.data.paramCount).length)) ∧
    (executeEntry ctx ups gls args).st.register.length =
      min ctx.data.paramCount args.length + 1 := by
  have hreg : (executeEntry ctx ups gls args).st.register =
      (args.take ctx.data.paramCount).map some ++
        [some ((tableOfList (args.drop ctx.data.paramCount)).setMember (.str "n")
          (.num (.int (args.drop ctx.data.paramCount).length)))] := by
    simp [executeEntry, h7]
  have hlen : ((args.take ctx.data.paramCount).map some).length =
      min ctx.data.paramCount args.length := by
    simp [List.length_take]
  refine ⟨rfl, rfl, ?_, ?_, ?_⟩
  · intro i hi
    obtain ⟨h1, h2⟩ := Nat.lt_min.mp hi
    unfold regRead slotVal
    rw [hreg, List.get?_append (by rw [hlen]; exact hi), List.get?_map,
      List.get?_take h1, List.get?_eq_get h2]
    simp [List.getD, List.getElem?_eq_getElem, h2]
  · unfold regRead slotVal
    rw [hreg, List.get?_append_right (le_of_eq hlen), hlen, Nat.sub_self]
    rfl
  · rw [hreg]
    simp [hlen]

/-- C6 counterexample: a compat-vararg prototype with `paramCount = 2`
called with a single argument: the claim places the surplus table at
register index 2, but register 2 is nil — the table was pushed at index 1
(right after the one copied argument). -/
theorem c6_counterexample :
    c6ctx.data.paramCount = 2 ∧ c6ctx.data.is_vararg = 7 ∧
    regRead (executeEntry c6ctx [] [] [.num (.int 10)]).st.register 2 = .nil ∧
    regRead (executeEntry c6ctx [] [] [.num (.int 10)]).st.register 1 =
      .table [("n", .num (.int 0))] none :=
  ⟨rfl, rfl, rfl, rfl⟩

/-- C6 witness: the spec's own example — paramCount 1, compat-vararg,
called with (10, 20, 30): register 0 = 10, register 1 = a table with
elements 20, 30 and `n` = 2. -/
theorem c6_witness :
    (executeEntry c6wctx [] [] c6wargs).st.pc = 0 ∧
    (executeEntry c6wctx [] [] c6wargs).st.params = c6wargs ∧
    (∀ i, i < min c6wctx.data.paramCount c6wargs.length →
      regRead (executeEntry c6wctx [] [] c6wargs).st.register i = c6wargs.getD i .nil) ∧
    regRead (executeEntry c6wctx [] [] c6wargs).st.register
        (min c6wctx.data.paramCount c6wargs.length) =
      (tableOfList (c6wargs.drop c6wctx.data.paramCount)).setMember (.str "n")
        (.num (.int (c6wargs.drop c6wctx.data.paramCount).length)) ∧
    (executeEntry c6wctx [] [] c6wargs).st.register.length =
      min c6wctx.data.paramCount c6wargs.length + 1 :=
  c6_theorem c6wctx [] [] c6wargs rfl

/-- Pointwise description of a JS array write: the target slot holds the
value; every other slot — including the holes created by extension — reads
as before. -/
theorem slotVal_regWrite (r : List (Option Value)) (i : Nat) (v : Value) (j : Nat) :
    slotVal (regWrite r i v) j = if j = i then some v else slotVal r j := by
  unfold regWrite slotVal
  by_cases h : i < r.length
  · rw [if_pos h]
    by_cases hj : j = i
    · subst hj
      rw [List.get?_set_eq_of_lt _ h, if_pos rfl]
      rfl
    · rw [List.get?_set_ne _ _ (Ne.symm hj), if_neg hj]
  · rw [if_neg h]
    push_neg at h
    by_cases hj : j = i
    · subst hj
      have hlen : (r ++ List.replicate (j - r.length) none).length = j := by
        simp only [List.length_append, List.length_replicate]
        omega
      rw [if_pos rfl, List.get?_append_right (le_of_eq hlen), hlen, Nat.sub_self]
      rfl
    · rw [if_neg hj]
      by_cases hjr : j < r.length
      · rw [List.get?_append
          (by simp only [List.length_append, List.length_replicate]; omega),
          List.get?_append hjr]
      · push_neg at hjr
        have hnone : r.get? j = none := List.get?_len_le hjr
        by_cases hji : j < i
        · rw [List.get?_append
            (by simp only [List.length_append, List.length_replicate]; omega),
            List.get?_append_right hjr, hnone]
          have hrep : j - r.length < i - r.length := by omega
          rw [List.get?_eq_getElem?]
          simp [List.getElem?_replicate, hrep]
        · have hout : ((r ++ List.replicate (i - r.length) none) ++ [some v]).length ≤ j := by
            simp only [List.length_append, List.length_replicate, List.length_singleton]
            omega
          rw [List.get?_len_le hout, hnone]

/-- Pointwise description of the VARARG delete loop. -/
theorem slotVal_regDeleteFrom (r : List (Option Value)) (t : Int) (j : Nat) :
    slotVal (regDeleteFrom r t) j = if t ≤ (j : Int) then none else slotVal r j := by
  unfold regDeleteFrom slotVal
  rw [List.get?_map, List.get?_enum]
  cases h : r.get? j with
  | none =>
    by_cases ht : t ≤ (j : Int) <;> simp [ht]
  | some v =>
    by_cases ht : t ≤ (j : Int) <;> simp [ht]

/-- Pointwise description of the VARARG copy loop: exactly the slots
`A .. A+n-1` receive the surplus arguments (nil beyond the supplied
ones); everything else is untouched. -/
theorem slotVal_copyFold (ps : List Value) (p0 a : Nat) :
    ∀ (n : Nat) (r : List (Option Value)) (j : Nat),
    slotVal ((List.range n).foldl
        (fun r i => regWrite r (a + i) ((ps.get? (p0 + i)).getD .nil)) r) j =
      if a ≤ j ∧ j < a + n then some ((ps.get? (p0 + (j - a))).getD .nil)
      else slotVal r j := by
  intro n
  induction n with
  | zero =>
    intro r j
    rw [if_neg (by omega)]
    rfl
  | succ n ih =>
    intro r j
    rw [List.range_succ, List.foldl_append, List.foldl_cons, List.foldl_nil,
      slotVal_regWrite]
    by_cases hj : j = a + n
    · subst hj
      rw [if_pos rfl, if_pos (by omega), Nat.add_sub_cancel_left]
    · rw [if_neg hj, ih r j]
      by_cases h2 : a ≤ j ∧ j < a + n
      · rw [if_pos h2, if_pos (by omega)]
      · rw [if_neg h2, if_neg (by omega)]

/-- C7 (amended): with `limit = params.length − paramCount` when B = 0
(possibly negative on under-application) and `limit = B − 1` otherwise,
VARARG copies surplus argument `j − A` into every slot `A ≤ j < A + limit`
(nil-padded beyond the supplied arguments), deletes every slot at signed
index ≥ A + limit — a bound that lies below A when fewer arguments than
declared parameters were supplied, so lower slots are deleted too — and
leaves slots below both bounds unchanged.  When `limit ≥ 0` this is the
claim's contract; the counterexample shows the deletion reaching below A
for negative `limit`. -/
theorem c7_theorem (ctx : Ctx) (st : St) (a : Nat) (b : Int) :
    vararg ctx st a b = .ok ({ st with register := varargReg ctx st a b }, none) ∧
    ∀ j : Nat,
      slotVal (varargReg ctx st a b) j =
        (if ((a : Int) + (if b = 0 then (st.params.length : Int) - ctx.data.paramCount
              else b - 1)) ≤ (j : Int) then none
         else if a ≤ j then
           some ((st.params.get? (ctx.data.paramCount + (j - a))).getD .nil)
         else slotVal st.register j) := by
  constructor
  · rfl
  · intro j
    unfold varargReg vararg
    rw [slotVal_regDeleteFrom, slotVal_copyFold]
    by_cases h1 : (a : Int) +
        (if b = 0 then (st.params.length : Int) - ctx.data.paramCount else b - 1) ≤ (j : Int)
    · rw [if_pos h1, if_pos h1]
    · rw [if_neg h1, if_neg h1]
      by_cases h2 : a ≤ j
      · have hcond : a ≤ j ∧ j <
            a + (if b = 0 then (st.params.length : Int) - ctx.data.paramCount else b - 1).toNat := by
          refine ⟨h2, ?_⟩
          omega
        rw [if_pos hcond, if_pos h2]
      · rw [if_neg (fun hc => h2 hc.1), if_neg h2]

/-- C7 counterexample: no arguments were supplied to a one-parameter
prototype, so `limit = params.length − paramCount = −1`; executing
VARARG(1, 0) copies nothing, and the claim then permits deletion only at
indices ≥ 1 + 0 = 1 — yet the handler's delete loop starts at
`A + limit = 0` and erases register 0 as well. -/
theorem c7_counterexample :
    (c7st.params.length : Int) - c7ctx.data.paramCount = -1 ∧
    slotVal c7st.register 0 = some (.num (.int 5)) ∧
    vararg c7ctx c7st 1 0 = .ok ({ c7st with register := [none, none] }, none) :=
  ⟨rfl, rfl, rfl⟩

/-- C8: whenever the driver loop propagates an error, `execute` rethrows
it wrapped: a host (non-language) exception becomes a language error
prefixed "Error in host call: " with the original host stack preserved
(and seeding the source stack); a language error keeps its message and
host stack; in both cases the source stack gains exactly one synthetic
frame, `at <sourceName> on line <line>` with the line read from the
prototype's linePositions at pc − 1. -/
theorem c8_theorem (ctx : Ctx) (fuel : Nat) (ups : List Value)
    (gls : List (String × Value)) (args : List Value) (stF : St) (e0 : RunErr)
    (h : run ctx fuel (executeEntry ctx ups gls args).st = .failed stF e0) :
    execute ctx fuel ups gls args = .err stF (wrapError ctx stF.pc e0) ∧
    (∀ msg stack, e0 = .host msg stack →
      (wrapError ctx stF.pc e0).message = "Error in host call: " ++ msg ∧
      (wrapError ctx stF.pc e0).stack = stack ∧
      (wrapError ctx stF.pc e0).luaStack =
        stack.splitOn "\n" ++ [synthFrame ctx stF.pc]) ∧
    (∀ le, e0 = .lua le →
      (wrapError ctx stF.pc e0).message = le.message ∧
      (wrapError ctx stF.pc e0).stack = le.stack ∧
      (wrapError ctx stF.pc e0).luaStack = le.luaStack ++ [synthFrame ctx stF.pc]) ∧
    (∀ line, 0 ≤ stF.pc - 1 →
      ctx.data.linePositions.get? (stF.pc - 1).toNat = some line →
      ctx.data.sourceName ≠ "" →
      synthFrame ctx stF.pc =
        "at " ++ ctx.data.sourceName ++ " on line " ++ natStr line) := by
  refine ⟨?_, ?_, ?_, ?_⟩
  · unfold execute
    simp only [h]
  · rintro msg stack rfl
    exact ⟨rfl, rfl, rfl⟩
  · rintro le rfl
    exact ⟨rfl, rfl, rfl⟩
  · intro line h1 h2 h3
    unfold synthFrame
    rw [if_neg h3, if_neg (by omega), h2]

/-- C8 witness: the theorem applied to a one-instruction program whose
ADD on two nils raises the arithmetic error at source line 99 — the
escaping error carries exactly the frame "at test.lua on line 99"
(end-to-end scenario 6 of the spec). -/
theorem c8_witness :
    execute c8ctx 5 [] [] [] = .err c8stF (wrapError c8ctx c8stF.pc (.lua c8err)) ∧
    (∀ msg stack, RunErr.lua c8err = .host msg stack →
      (wrapError c8ctx c8stF.pc (.lua c8err)).message = "Error in host call: " ++ msg ∧
      (wrapError c8ctx c8stF.pc (.lua c8err)).stack = stack ∧
      (wrapError c8ctx c8stF.pc (.lua c8err)).luaStack =
        stack.splitOn "\n" ++ [synthFrame c8ctx c8stF.pc]) ∧
    (∀ le, RunErr.lua c8err = .lua le →
      (wrapError c8ctx c8stF.pc (.lua c8err)).message = le.message ∧
      (wrapError c8ctx c8stF.pc (.lua c8err)).stack = le.stack ∧
      (wrapError c8ctx c8stF.pc (.lua c8err)).luaStack =
        le.luaStack ++ [synthFrame c8ctx c8stF.pc]) ∧
    (∀ line, 0 ≤ c8stF.pc - 1 →
      c8ctx.data.linePositions.get? (c8stF.pc - 1).toNat = some line →
      c8ctx.data.sourceName ≠ "" →
      synthFrame c8ctx c8stF.pc =
        "at " ++ c8ctx.data.sourceName ++ " on line " ++ natStr line) :=
  c8_theorem c8ctx 5 [] [] [] c8stF (.lua c8err) rfl

/-- C9 (code bug, evaluated at the failing input): CALL(0, 1, 0) invokes
the callee in register 0 and splices its results, while TAILCALL(0, 1) —
specified to behave exactly as CALL(0, 1, 0) — raises a host TypeError
instead: `tailcall` delegates via the plain call `call(a, b, 0)`, whose
sloppy-mode `this` is the global object rather than the activation, so
the delegated handler dereferences `_register` on an object that has
none.  The intended delegation (the source's own comment describes
TAILCALL as a non-optimized call) would require `call.call(this, a, b,
0)`. -/
theorem c9_code_bug :
    call c9ctx (some c9st) 0 1 0 =
      .ok ({ c9st with register := [some (.num (.int 42))] }, none) ∧
    tailcall c9ctx (some c9st) 0 1 = .error typeError :=
  ⟨rfl, rfl⟩

/-- C10: invoking `Closure.prototype.execute` directly splices the
caller's argument array in place — afterwards it holds only the surplus
arguments past `paramCount` — while the full original vector is retained
internally as `_params`; the constructor-returned wrapper copies the JS
`arguments` object into a fresh array first, so a caller through the
wrapper keeps its array intact. -/
theorem c10_theorem (ctx : Ctx) (fuel : Nat) (ups : List Value)
    (gls : List (String × Value)) (args : List Value) :
    (executeDirect ctx fuel ups gls args).2 = args.drop ctx.data.paramCount ∧
    (executeEntry ctx ups gls args).st.params = args ∧
    (closureWrapper ctx fuel ups gls args).2 = args :=
  ⟨rfl, rfl, rfl⟩

end Luajs
